import Mathlib

/-!
Verification of the Transverse client-side file-translation workflow
(`src/script.js`): page selection and parsing, the time estimate, the
upload validation, and the translation submission logic, shallowly
embedded in Lean.  Pure computations become Lean functions; the
module-level mutable variables of the script become an explicit state
record threaded through the operations; DOM/network effects are
reflected as explicit outcome values.
-/

namespace Transverse

/-- A browser `File` value, restricted to the fields the embedded code
reads: `name`, `type` (the declared MIME content-type) and `size`. -/
structure JsFile where
  name : String
  type : String
  size : Nat
deriving DecidableEq

/-- The `file_info` object of the upload response; the core reads its
declared page count. -/
structure FileInfo where
  pages : Nat
deriving DecidableEq

/-- The stored upload response (global `currentFileData`), of which the
core reads `file_info`. -/
structure FileData where
  file_info : FileInfo
deriving DecidableEq

/-- The module-level mutable state of `script.js` that the embedded
operations read and write (lines 572-580):
`selectedPages`, `currentFileData`, `currentFileInfo`,
`originalUploadedFile`, plus the two DOM inputs the translate handler
reads (`fileInput.files` and the target-language select). -/
structure TransverseState where
  selectedPages : List Int
  currentFileData : Option FileData
  currentFileInfo : Option FileInfo
  originalUploadedFile : Option JsFile
  fileInputFiles : List JsFile
  fileTargetLanguage : String
deriving DecidableEq

/-- The numeric ascending sort `.sort((a, b) => a - b)` used on the
selection array: the ascending reordering of the list. -/
def sortInts (l : List Int) : List Int := List.insertionSort (· ≤ ·) l

/-- `togglePageSelection(pageNumber)` (script.js 901-915) acting on the
global `selectedPages` array: remove the page if present (`indexOf` +
`splice` removes the first occurrence), otherwise `push` it; the array
is then re-sorted ascending.  The source performs no range check on
`pageNumber`. -/
def togglePageSelection (selectedPages : List Int) (pageNumber : Int) : List Int :=
  let sel :=
    if pageNumber ∈ selectedPages then selectedPages.erase pageNumber
    else selectedPages ++ [pageNumber]
  sortInts sel

/-- Numeric value of a decimal digit character. -/
def digitVal (c : Char) : Nat := c.toNat - 48

/-- JS `parseInt(s)` with radix inferred as 10, modelled for decimal
input: trim, optional sign, then the longest leading run of decimal
digits; `NaN` (here `none`) when that run is empty.  (The automatic
hexadecimal `0x` prefix of `parseInt` is not modelled; no property below
depends on which integer a particular token denotes.  Trimming is
modelled over ASCII whitespace.) -/
def jsParseInt (s : String) : Option Int :=
  let t := s.trim.data
  let signDigits : Int × List Char :=
    match t with
    | [] => (1, [])
    | c :: rest =>
      if c = '-' then (-1, rest)
      else if c = '+' then (1, rest)
      else (1, t)
  let ds := signDigits.2.takeWhile Char.isDigit
  if ds.isEmpty then none
  else some (signDigits.1 * Int.ofNat (ds.foldl (fun acc c => 10 * acc + digitVal c) 0))

/-- `if (!newSelectedPages.includes(x)) newSelectedPages.push(x)`. -/
def pushIfAbsent (l : List Int) (x : Int) : List Int :=
  if x ∈ l then l else l ++ [x]

/-- The values visited by `for (let i = start; i <= end; i++)`. -/
def jsRange (start fin : Int) : List Int :=
  (List.range (fin + 1 - start).toNat).map (fun i => start + (i : Int))

/-- One comma-separated token of the page specification
(script.js 968-991): a token containing `-` is split on `-` and kept
only when that yields exactly two parts, both parse as numbers, and
`start ≤ end` (each value of the range is pushed if not already
present); any other token is parsed as a single integer and pushed if
numeric and not already present.  Failing tokens leave the accumulator
unchanged. -/
def processToken (acc : List Int) (part : String) : List Int :=
  let trimmed := part.trim
  if trimmed.contains '-' then
    match trimmed.splitOn "-" with
    | [a, b] =>
      match jsParseInt a.trim, jsParseInt b.trim with
      | some s, some e =>
        if s ≤ e then (jsRange s e).foldl pushIfAbsent acc else acc
      | _, _ => acc
    | _ => acc
  else
    match jsParseInt trimmed with
    | some p => pushIfAbsent acc p
    | none => acc

/-- `currentFileData ? (currentFileData.file_info.pages || 1) : 1000`
(script.js 994): `|| 1` turns a falsy (zero) page count into 1. -/
def maxPagesOf (currentFileData : Option FileData) : Nat :=
  match currentFileData with
  | some d => if d.file_info.pages = 0 then 1 else d.file_info.pages
  | none => 1000

/-- `parsePageInput` (script.js 958-999), as the new value assigned to
the global `selectedPages`: trims the input (empty input behaves as
`deselectAllPages()`), splits on commas, processes each token, filters
the collected values to `[1, maxPages]` and sorts ascending.  The
previous selection `_prev` is overwritten without being read. -/
def parsePageInput (_prev : List Int) (input : String)
    (currentFileData : Option FileData) : List Int :=
  let t := input.trim
  if t.isEmpty then []
  else
    let newSelectedPages := (t.splitOn ",").foldl processToken []
    let maxPages := maxPagesOf currentFileData
    sortInts (newSelectedPages.filter
      (fun page => decide (1 ≤ page ∧ page ≤ (maxPages : Int))))

/-- `updateTimeEstimate(selectedPages)` (script.js 1023-1043), as the
text written to the estimate element.  The float arithmetic
`selectedPages.length * 4.5` is exact in binary64, so it is embedded in
half-seconds: `h = 9 * length` stands for `totalSeconds = h / 2`.
`Math.round(h / 2) = (h + 1) / 2` and `Math.floor((h / 2) / 60) =
h / 120` and `(h / 2) % 60 = (h % 120) / 2` in this encoding, with `/`
denoting natural-number division. -/
def updateTimeEstimate (selectedPages : List Int) : String :=
  if selectedPages.length = 0 then "--"
  else if 9 * selectedPages.length < 120 then
    toString ((9 * selectedPages.length + 1) / 2) ++ "s"
  else
    toString (9 * selectedPages.length / 120) ++ "m "
      ++ toString ((9 * selectedPages.length % 120 + 1) / 2) ++ "s"

/-- Refinement target for `updateTimeEstimate`, written from the words
of the spec: `ceil(count × 4.5)` seconds (`= (9 × count + 1) / 2` in natural
division), printed `"Ns"` below a minute and `"Mm Ss"` from a minute
up, with the sentinel for an empty selection. -/
def estimateDurationSpec (count : Nat) : String :=
  if count = 0 then "--"
  else if (9 * count + 1) / 2 < 60 then
    toString ((9 * count + 1) / 2) ++ "s"
  else
    toString ((9 * count + 1) / 2 / 60) ++ "m "
      ++ toString ((9 * count + 1) / 2 % 60) ++ "s"

/-- The page numbers of the rendered page icons: `1..n` for a file of
`n` pages (`generatePagePreviews`, script.js 826-856). -/
def fullRange (n : Nat) : List Int :=
  (List.range n).map (fun i => ((i + 1 : Nat) : Int))

/-- The content-type allow-list of `handleFileUpload`
(script.js 593-624). -/
def allowedTypes : List String :=
  ["text/plain", "application/pdf", "application/vnd.ms-xpsdocument",
   "application/oxps", "application/epub+zip", "application/x-mobipocket-ebook",
   "application/x-fictionbook+xml", "text/xml", "application/vnd.comicbook+zip",
   "application/zip", "image/svg+xml",
   "image/jpeg", "image/png", "image/bmp", "image/gif", "image/tiff",
   "image/x-portable-anymap", "image/x-portable-graymap", "image/x-portable-bitmap",
   "image/x-portable-pixmap", "image/x-portable-arbitrarymap",
   "image/vnd.ms-photo", "image/jxr", "image/jp2", "image/jpx",
   "image/vnd.adobe.photoshop", "application/octet-stream"]

/-- Observable outcome of `handleFileUpload`: a synchronous user-facing
validation error (notification, no request), or the start of a tracked
transfer (`uploadFileToServer(file)`). -/
inductive UploadOutcome
  | rejected (message : String)
  | transferStarted (file : JsFile)
deriving DecidableEq

/-- `handleFileUpload(file)` (script.js 583-636): stores the file in
the global `originalUploadedFile` first, then validates its declared
content-type against the allow-list; a type outside the list shows an
error notification and returns, otherwise the transfer starts. -/
def handleFileUpload (st : TransverseState) (file : JsFile) :
    TransverseState × UploadOutcome :=
  let st1 := { st with originalUploadedFile := some file }
  if !allowedTypes.contains file.type then
    (st1, .rejected "Unsupported file type. Please upload supported document or image formats.")
  else
    (st1, .transferStarted file)

/-- A value appended to the multipart `FormData`. -/
inductive FormValue
  | fileVal (f : JsFile)
  | strVal (s : String)
deriving DecidableEq

/-- Observable outcome of `translateFileContent`: a synchronous
validation error (notification shown, no request built), a JS
`TypeError` (reachable only when `currentFileData` is set while
`currentFileInfo` is not), or the dispatch of the multipart request
(`xhr.send(formData)`). -/
inductive SubmitOutcome
  | validationError (message : String)
  | jsError
  | send (form : List (String × FormValue))
deriving DecidableEq

/-- Whether the outcome is a synchronous validation error. -/
def SubmitOutcome.isValidation : SubmitOutcome → Bool
  | .validationError _ => true
  | _ => false

/-- Whether the outcome dispatched a network request. -/
def SubmitOutcome.isSend : SubmitOutcome → Bool
  | .send _ => true
  | _ => false

/-- The `FormData` built by `translateFileContent` (script.js
1117-1125): `file` (the original file bytes), `target_language`,
`service_name` (fixed `"gemini"`), and — when the selection count is
non-zero and differs from `currentFileInfo.pages` — a `pages` field
holding the comma-joined selected page numbers. -/
def buildTranslateForm (file : JsFile) (targetLanguage : String)
    (selectedPages : List Int) (pagesCount : Nat) : List (String × FormValue) :=
  if 0 < selectedPages.length ∧ selectedPages.length ≠ pagesCount then
    [("file", .fileVal file),
     ("target_language", .strVal targetLanguage),
     ("service_name", .strVal "gemini"),
     ("pages", .strVal (String.intercalate "," (selectedPages.map toString)))]
  else
    [("file", .fileVal file),
     ("target_language", .strVal targetLanguage),
     ("service_name", .strVal "gemini")]

/-- `translateFileContent()` (script.js 1079-1194) up to the dispatch of
the request: guards on `currentFileData` and a non-empty selection;
falls back to `fileInput.files[0]` (adopting it as
`originalUploadedFile`) when no original file is retained; guards on a
payload being available; then builds the multipart form and sends it. -/
def translateFileContent (st : TransverseState) : SubmitOutcome × TransverseState :=
  match st.currentFileData with
  | none => (.validationError "No file data available", st)
  | some _ =>
    if st.selectedPages.length = 0 then
      (.validationError "Please select at least one page to translate", st)
    else
      let st1 :=
        match st.originalUploadedFile with
        | some _ => st
        | none =>
          match st.fileInputFiles with
          | f :: _ => { st with originalUploadedFile := some f }
          | [] => st
      match st1.originalUploadedFile with
      | none => (.validationError "Please upload a file first", st1)
      | some file =>
        match st.currentFileInfo with
        | none => (.jsError, st1)
        | some fi =>
          (.send (buildTranslateForm file st.fileTargetLanguage st.selectedPages fi.pages),
           st1)

/-- Parsed translate-endpoint JSON body after JS truthiness coercion:
`success` is the truthiness of the `success` field; fields absent from
the JSON are `none`. -/
structure TranslateData where
  success : Bool
  download_url : Option String
  translated_pages : Option Nat
  error : Option String
deriving DecidableEq

/-- Body of a translate response as seen by `xhr.onload`: `JSON.parse`
throws (`malformed`), yields a falsy value such as `null`
(`parsed none`), or yields an object (`parsed (some d)`). -/
inductive TranslateBody
  | malformed
  | parsed (data : Option TranslateData)
deriving DecidableEq

/-- Failure classification of the translate onload handler. -/
inductive FailReason
  | serverReported (error : Option String)
  | emptyResponse
  | invalidFormat
  | httpError (status : Nat)
deriving DecidableEq

/-- Terminal outcome of the translate `xhr.onload` handler: success
records `data.download_url` exactly as present-or-absent, plus the page
count reported in the success notification. -/
inductive TranslateLoadOutcome
  | succeeded (downloadUrl : Option String) (reportedPages : Nat)
  | failed (reason : FailReason)
deriving DecidableEq

/-- Whether the outcome is a failure. -/
def TranslateLoadOutcome.isFailed : TranslateLoadOutcome → Bool
  | .failed _ => true
  | _ => false

/-- JS `v || d` for an optional number: the fallback is used when the
field is absent or zero (falsy). -/
def jsOrNat (v : Option Nat) (d : Nat) : Nat :=
  match v with
  | some p => if p = 0 then d else p
  | none => d

/-- `xhr.onload` of `translateFileContent` (script.js 1133-1174): on
status 200 parse the body; `data && data.success` selects the success
path, which records `data.download_url` (whether or not it is present)
and reports `data.translated_pages || selectedPages.length` pages;
otherwise the error is classified.  Non-200 statuses fail with the
HTTP status. -/
def handleTranslateLoad (status : Nat) (body : TranslateBody)
    (selectedCount : Nat) : TranslateLoadOutcome :=
  if status = 200 then
    match body with
    | .malformed => .failed .invalidFormat
    | .parsed none => .failed .emptyResponse
    | .parsed (some data) =>
      if data.success then
        .succeeded data.download_url (jsOrNat data.translated_pages selectedCount)
      else
        .failed (.serverReported data.error)
  else
    .failed (.httpError status)

end Transverse

namespace Transverse

open List

/-- The ascending numeric sort is a permutation of its input. -/
theorem sortInts_perm (l : List Int) : sortInts l ~ l := List.perm_insertionSort _ l

/-- The ascending numeric sort is sorted for `≤`. -/
theorem sortInts_sorted (l : List Int) : List.Sorted (· ≤ ·) (sortInts l) :=
  List.sorted_insertionSort _ l

/-- Membership is invariant under the sort. -/
theorem mem_sortInts {x : Int} {l : List Int} : x ∈ sortInts l ↔ x ∈ l :=
  (sortInts_perm l).mem_iff

/-- A guarded push preserves duplicate-freedom. -/
theorem pushIfAbsent_nodup {l : List Int} (h : l.Nodup) (x : Int) :
    (pushIfAbsent l x).Nodup := by
  unfold pushIfAbsent
  split
  · exact h
  · next hx => simp [List.nodup_append, h, hx]

/-- Folding guarded pushes preserves duplicate-freedom. -/
theorem foldl_pushIfAbsent_nodup (xs : List Int) :
    ∀ {acc : List Int}, acc.Nodup → (xs.foldl pushIfAbsent acc).Nodup := by
  induction xs with
  | nil => exact fun h => h
  | cons x xs ih => exact fun h => ih (pushIfAbsent_nodup h x)

/-- Processing one token of the page specification preserves
duplicate-freedom of the accumulator. -/
theorem processToken_nodup (part : String) {acc : List Int} (h : acc.Nodup) :
    (processToken acc part).Nodup := by
  dsimp only [processToken]
  repeat' split
  all_goals
    first
      | exact foldl_pushIfAbsent_nodup _ h
      | exact pushIfAbsent_nodup h _
      | exact h

/-- Processing every token preserves duplicate-freedom. -/
theorem foldl_processToken_nodup (parts : List String) :
    ∀ {acc : List Int}, acc.Nodup → (parts.foldl processToken acc).Nodup := by
  induction parts with
  | nil => exact fun h => h
  | cons p ps ih => exact fun h => ih (processToken_nodup p h)

/-- The rendered page range `1..n` has length `n`. -/
theorem fullRange_length (n : Nat) : (fullRange n).length = n := by
  simp [fullRange]

/-- The rendered page range `1..n` is strictly ascending. -/
theorem fullRange_sorted (n : Nat) : List.Sorted (· < ·) (fullRange n) := by
  unfold fullRange
  refine List.Pairwise.map _ (fun a b hab => ?_) (List.pairwise_lt_range n)
  omega

/-- Membership in the rendered page range is the interval condition. -/
theorem mem_fullRange {x : Int} {n : Nat} :
    x ∈ fullRange n ↔ 1 ≤ x ∧ x ≤ (n : Int) := by
  simp only [fullRange, List.mem_map, List.mem_range]
  constructor
  · rintro ⟨i, hi, rfl⟩
    omega
  · intro hx
    exact ⟨(x - 1).toNat, by omega, by omega⟩

/-- A strictly ascending selection inside `[1, n]` exhausts `1..n`
exactly when it has `n` elements. -/
theorem length_eq_iff_eq_fullRange {sel : List Int} {n : Nat}
    (hsort : List.Sorted (· < ·) sel)
    (hrange : ∀ x ∈ sel, 1 ≤ x ∧ x ≤ (n : Int)) :
    sel.length = n ↔ sel = fullRange n := by
  constructor
  · intro hlen
    have hnd : sel.Nodup := hsort.imp (fun hab => ne_of_lt hab)
    have hsub : sel ⊆ fullRange n := fun x hx => mem_fullRange.2 (hrange x hx)
    have hsp : sel <+~ fullRange n := List.subperm_of_subset hnd hsub
    have hperm : sel ~ fullRange n :=
      hsp.perm_of_length_le (by rw [fullRange_length, hlen])
    exact List.eq_of_perm_of_sorted hperm hsort.le_of_lt (fullRange_sorted n).le_of_lt
  · intro h
    rw [h, fullRange_length]

/-- Claim C2: for every page count `n ≥ 1` and every text input, the selection
produced by `parsePageInput` is strictly ascending (hence
duplicate-free), each value lies in `[1, n]`, and it replaces the
previous selection wholesale (the result does not depend on it);
invalid tokens and reversed ranges are dropped per-token, never raising
an error (the embedding is a total function). -/
theorem parsePageInput_strictly_ascending_in_range (n : Nat) (hn : 1 ≤ n)
    (prev : List Int) (input : String) :
    List.Sorted (· < ·) (parsePageInput prev input (some ⟨⟨n⟩⟩)) ∧
    (∀ x ∈ parsePageInput prev input (some ⟨⟨n⟩⟩), 1 ≤ x ∧ x ≤ (n : Int)) ∧
    (∀ prev' : List Int,
      parsePageInput prev input (some ⟨⟨n⟩⟩)
        = parsePageInput prev' input (some ⟨⟨n⟩⟩)) := by
  have hmax : maxPagesOf (some ⟨⟨n⟩⟩) = n := by
    dsimp only [maxPagesOf]
    split <;> omega
  refine ⟨?_, ?_, fun prev' => rfl⟩
  · dsimp only [parsePageInput]
    split
    · exact List.sorted_nil
    · have hnd : (((input.trim.splitOn ",").foldl processToken []).filter
          (fun page => decide (1 ≤ page ∧ page ≤ (maxPagesOf (some ⟨⟨n⟩⟩) : Int)))).Nodup :=
        (foldl_processToken_nodup _ List.nodup_nil).filter _
      have hnds : (sortInts (((input.trim.splitOn ",").foldl processToken []).filter
          (fun page => decide (1 ≤ page ∧ page ≤ (maxPagesOf (some ⟨⟨n⟩⟩) : Int))))).Nodup :=
        (sortInts_perm _).nodup_iff.2 hnd
      exact (sortInts_sorted _).lt_of_le hnds
  · intro x hx
    dsimp only [parsePageInput] at hx
    rw [hmax] at hx
    split at hx
    · simp at hx
    · rw [mem_sortInts] at hx
      have := List.of_mem_filter hx
      simpa using this

/-- Claim C3 as stated is false: with page count 5, toggling the out-of-range
page 99 on the empty selection adds it instead of leaving the
selection unchanged. -/
theorem togglePageSelection_out_of_range_adds :
    (1 ≤ 5 ∧ ¬(1 ≤ (99 : Int) ∧ (99 : Int) ≤ (5 : Int))) ∧
    togglePageSelection [] 99 = [99] ∧ togglePageSelection [] 99 ≠ [] := by
  decide

/-- Claim C3 amended: `togglePageSelection` performs no range check of its
own — on any duplicate-free selection, membership of `p` flips
unconditionally, so a page not currently selected is added even when it
lies outside `[1, n]` (the range restriction in the UI comes from the
caller, which only passes rendered page numbers). -/
theorem togglePageSelection_mem_iff (sel : List Int) (p : Int)
    (hnd : sel.Nodup) :
    p ∈ togglePageSelection sel p ↔ p ∉ sel := by
  dsimp only [togglePageSelection]
  by_cases hp : p ∈ sel
  · rw [if_pos hp, mem_sortInts]
    simp [List.Nodup.mem_erase_iff hnd, hp]
  · rw [if_neg hp, mem_sortInts]
    simp [hp]

/-- Witness for the amended C3 at a concrete input. -/
theorem togglePageSelection_mem_iff_witness :
    ([1, 2] : List Int).Nodup ∧
      (99 ∈ togglePageSelection [1, 2] 99 ↔ 99 ∉ ([1, 2] : List Int)) :=
  ⟨by decide, togglePageSelection_mem_iff [1, 2] 99 (by decide)⟩

/-- Claim C7: on a Selected Page Set (strictly ascending, as the data model
keeps it), toggling any in-range page twice restores the prior
selection exactly. -/
theorem togglePageSelection_involutive (n : Nat) (sel : List Int) (p : Int)
    (hsort : List.Sorted (· < ·) sel) (_hp : 1 ≤ p ∧ p ≤ (n : Int)) :
    togglePageSelection (togglePageSelection sel p) p = sel := by
  have hnd : sel.Nodup := hsort.imp (fun hab => ne_of_lt hab)
  have hle : List.Sorted (· ≤ ·) sel := hsort.le_of_lt
  by_cases hmem : p ∈ sel
  · have h1 : togglePageSelection sel p = sortInts (sel.erase p) := by
      simp [togglePageSelection, hmem]
    have hout : p ∉ sortInts (sel.erase p) := by
      rw [mem_sortInts]
      intro hc
      exact ((List.Nodup.mem_erase_iff hnd).1 hc).1 rfl
    have h2 : togglePageSelection (sortInts (sel.erase p)) p
        = sortInts (sortInts (sel.erase p) ++ [p]) := by
      simp [togglePageSelection, hout]
    rw [h1, h2]
    apply List.eq_of_perm_of_sorted _ (sortInts_sorted _) hle
    calc sortInts (sortInts (sel.erase p) ++ [p])
        ~ sortInts (sel.erase p) ++ [p] := sortInts_perm _
      _ ~ (sel.erase p) ++ [p] := (sortInts_perm _).append_right _
      _ ~ p :: sel.erase p := List.perm_append_singleton _ _
      _ ~ sel := (List.perm_cons_erase hmem).symm
  · have h1 : togglePageSelection sel p = sortInts (sel ++ [p]) := by
      simp [togglePageSelection, hmem]
    have hin : p ∈ sortInts (sel ++ [p]) := by
      rw [mem_sortInts]
      simp
    have h2 : togglePageSelection (sortInts (sel ++ [p])) p
        = sortInts ((sortInts (sel ++ [p])).erase p) := by
      simp [togglePageSelection, hin]
    rw [h1, h2]
    apply List.eq_of_perm_of_sorted _ (sortInts_sorted _) hle
    calc sortInts ((sortInts (sel ++ [p])).erase p)
        ~ (sortInts (sel ++ [p])).erase p := sortInts_perm _
      _ ~ (sel ++ [p]).erase p := (sortInts_perm _).erase p
      _ = sel ++ ([p].erase p) := List.erase_append_right _ hmem
      _ = sel := by simp

/-- Witness for C7 at a concrete input. -/
theorem togglePageSelection_involutive_witness :
    (List.Sorted (· < ·) ([1, 3] : List Int) ∧
      (1 ≤ (2 : Int) ∧ (2 : Int) ≤ ((5 : Nat) : Int))) ∧
    togglePageSelection (togglePageSelection [1, 3] 2) 2 = [1, 3] :=
  ⟨⟨by decide, by decide⟩,
    togglePageSelection_involutive 5 [1, 3] 2 (by decide) (by decide)⟩

/-- The half-of-an-even-split division fact behind the minute-seconds
branch: with `r < 120` divisible by 3, `(r + 1) / 2` is below 60 and is
the seconds part of `(120 q + r + 1) / 2`. -/
theorem half_mod_sixty (q r : Nat) (hr : r < 120) (h3 : r % 3 = 0) :
    (120 * q + r + 1) / 2 % 60 = (r + 1) / 2 := by
  have h1 : (120 * q + r + 1) / 2 = (r + 1) / 2 + 60 * q := by
    rw [show 120 * q + r + 1 = (r + 1) + 2 * (60 * q) by omega]
    rw [Nat.add_mul_div_left _ _ (by omega : 0 < 2)]
  rw [h1, Nat.add_mul_mod_self_left, Nat.mod_eq_of_lt (by omega)]

/-- Claim C6: `updateTimeEstimate` realises the specified `estimateDuration` at
the default 4.5 seconds per page — the rounded total it prints equals
`ceil(|selection| × 4.5)` in both formats — and in particular the empty
selection yields the sentinel and 10 pages yield `"45s"`. -/
theorem updateTimeEstimate_eq_spec :
    (∀ sel : List Int, updateTimeEstimate sel = estimateDurationSpec sel.length) ∧
    updateTimeEstimate [] = "--" ∧
    updateTimeEstimate [1, 2, 3, 4, 5, 6, 7, 8, 9, 10] = "45s" := by
  refine ⟨?_, rfl, by decide⟩
  intro sel
  unfold updateTimeEstimate estimateDurationSpec
  by_cases h0 : sel.length = 0
  · rw [if_pos h0, if_pos h0]
  · rw [if_neg h0, if_neg h0]
    by_cases h1 : 9 * sel.length < 120
    · rw [if_pos h1, if_pos (show (9 * sel.length + 1) / 2 < 60 by omega)]
    · rw [if_neg h1, if_neg (show ¬(9 * sel.length + 1) / 2 < 60 by omega)]
      have h3 : 9 * sel.length % 120 % 3 = 0 := by omega
      have hr : 9 * sel.length % 120 < 120 := by omega
      have key := half_mod_sixty (9 * sel.length / 120) (9 * sel.length % 120) hr h3
      rw [Nat.div_add_mod] at key
      rw [show (9 * sel.length + 1) / 2 / 60 = 9 * sel.length / 120 by omega, key]

/-- Witness for C2 at a concrete input. -/
theorem parsePageInput_strictly_ascending_in_range_witness :
    1 ≤ 10 ∧
    (List.Sorted (· < ·) (parsePageInput [] "1,3,5-8" (some ⟨⟨10⟩⟩)) ∧
      (∀ x ∈ parsePageInput [] "1,3,5-8" (some ⟨⟨10⟩⟩),
        1 ≤ x ∧ x ≤ ((10 : Nat) : Int)) ∧
      (∀ prev' : List Int,
        parsePageInput [] "1,3,5-8" (some ⟨⟨10⟩⟩)
          = parsePageInput prev' "1,3,5-8" (some ⟨⟨10⟩⟩))) :=
  ⟨by decide, parsePageInput_strictly_ascending_in_range 10 (by decide) [] "1,3,5-8"⟩

/-- The three unconditional fields of the translate form. -/
theorem buildTranslateForm_base_mem (f : JsFile) (lang : String)
    (sel : List Int) (n : Nat) :
    ("file", FormValue.fileVal f) ∈ buildTranslateForm f lang sel n ∧
    ("target_language", FormValue.strVal lang) ∈ buildTranslateForm f lang sel n ∧
    ("service_name", FormValue.strVal "gemini") ∈ buildTranslateForm f lang sel n := by
  unfold buildTranslateForm
  split <;> simp

/-- The `pages` field appears in the translate form exactly when the
selection count is positive and differs from the page count. -/
theorem buildTranslateForm_pages_mem_iff (f : JsFile) (lang : String)
    (sel : List Int) (n : Nat) :
    (∃ v, ("pages", v) ∈ buildTranslateForm f lang sel n) ↔
      0 < sel.length ∧ sel.length ≠ n := by
  unfold buildTranslateForm
  split
  · next hC => simp [hC]
  · next hC => simp [hC]

/-- When present, the `pages` field holds the comma-joined selection. -/
theorem buildTranslateForm_pages_value (f : JsFile) (lang : String)
    (sel : List Int) (n : Nat) (h : 0 < sel.length ∧ sel.length ≠ n) :
    ("pages", FormValue.strVal (String.intercalate "," (sel.map toString)))
      ∈ buildTranslateForm f lang sel n := by
  unfold buildTranslateForm
  rw [if_pos h]
  simp

/-- Claim C4: a submitted translation carries the original file bytes, the
target-language label and the provider identifier, and carries the
`pages` field (the comma-joined selected page numbers) exactly when the
(non-empty) Selected Page Set is a proper subset of the pages of the file,
`1..n`; when all pages are selected the field is omitted. -/
theorem translateFileContent_form_fields (st : TransverseState)
    (d : FileData) (fi : FileInfo) (f : JsFile)
    (hd : st.currentFileData = some d) (hfi : st.currentFileInfo = some fi)
    (hf : st.originalUploadedFile = some f) (hne : st.selectedPages ≠ [])
    (hsort : List.Sorted (· < ·) st.selectedPages)
    (hrange : ∀ x ∈ st.selectedPages, 1 ≤ x ∧ x ≤ (fi.pages : Int)) :
    ∃ form, (translateFileContent st).1 = .send form ∧
      ("file", FormValue.fileVal f) ∈ form ∧
      ("target_language", FormValue.strVal st.fileTargetLanguage) ∈ form ∧
      ("service_name", FormValue.strVal "gemini") ∈ form ∧
      ((∃ v, ("pages", v) ∈ form) ↔ st.selectedPages ≠ fullRange fi.pages) ∧
      (st.selectedPages ≠ fullRange fi.pages →
        ("pages", FormValue.strVal
          (String.intercalate "," (st.selectedPages.map toString))) ∈ form) := by
  obtain ⟨sel, cfd, cfi, ouf, fif, lang⟩ := st
  dsimp only at hd hfi hf hne hsort hrange ⊢
  subst hd
  subst hfi
  subst hf
  have hlen : ¬ sel.length = 0 := by
    simpa [List.length_eq_zero] using hne
  have hpos : 0 < sel.length := Nat.pos_of_ne_zero hlen
  have hiff : sel.length = fi.pages ↔ sel = fullRange fi.pages :=
    length_eq_iff_eq_fullRange hsort hrange
  refine ⟨buildTranslateForm f lang sel fi.pages, ?_, ?_, ?_, ?_, ?_, ?_⟩
  · simp [translateFileContent, hlen]
  · exact (buildTranslateForm_base_mem f lang sel fi.pages).1
  · exact (buildTranslateForm_base_mem f lang sel fi.pages).2.1
  · exact (buildTranslateForm_base_mem f lang sel fi.pages).2.2
  · rw [buildTranslateForm_pages_mem_iff]
    constructor
    · rintro ⟨_, hC⟩ heq
      exact hC (hiff.2 heq)
    · intro hne'
      exact ⟨hpos, fun hC => hne' (hiff.1 hC)⟩
  · intro hne'
    exact buildTranslateForm_pages_value f lang sel fi.pages
      ⟨hpos, fun hC => hne' (hiff.1 hC)⟩

/-- Witness for C4 at a concrete state (2-page file, page 1 selected). -/
theorem translateFileContent_form_fields_witness :
    ((TransverseState.mk [1] (some ⟨⟨2⟩⟩) (some ⟨2⟩)
        (some ⟨"a.pdf", "application/pdf", 3⟩) [] "French").currentFileData
          = some ⟨⟨2⟩⟩ ∧
      (TransverseState.mk [1] (some ⟨⟨2⟩⟩) (some ⟨2⟩)
        (some ⟨"a.pdf", "application/pdf", 3⟩) [] "French").currentFileInfo
          = some ⟨2⟩ ∧
      (TransverseState.mk [1] (some ⟨⟨2⟩⟩) (some ⟨2⟩)
        (some ⟨"a.pdf", "application/pdf", 3⟩) [] "French").originalUploadedFile
          = some ⟨"a.pdf", "application/pdf", 3⟩ ∧
      (TransverseState.mk [1] (some ⟨⟨2⟩⟩) (some ⟨2⟩)
        (some ⟨"a.pdf", "application/pdf", 3⟩) [] "French").selectedPages ≠ [] ∧
      List.Sorted (· < ·) (TransverseState.mk [1] (some ⟨⟨2⟩⟩) (some ⟨2⟩)
        (some ⟨"a.pdf", "application/pdf", 3⟩) [] "French").selectedPages ∧
      (∀ x ∈ (TransverseState.mk [1] (some ⟨⟨2⟩⟩) (some ⟨2⟩)
        (some ⟨"a.pdf", "application/pdf", 3⟩) [] "French").selectedPages,
          1 ≤ x ∧ x ≤ ((FileInfo.mk 2).pages : Int))) ∧
    (∃ form, (translateFileContent (TransverseState.mk [1] (some ⟨⟨2⟩⟩) (some ⟨2⟩)
        (some ⟨"a.pdf", "application/pdf", 3⟩) [] "French")).1 = .send form ∧
      ("file", FormValue.fileVal ⟨"a.pdf", "application/pdf", 3⟩) ∈ form ∧
      ("target_language", FormValue.strVal (TransverseState.mk [1] (some ⟨⟨2⟩⟩)
        (some ⟨2⟩) (some ⟨"a.pdf", "application/pdf", 3⟩) [] "French").fileTargetLanguage)
          ∈ form ∧
      ("service_name", FormValue.strVal "gemini") ∈ form ∧
      ((∃ v, ("pages", v) ∈ form) ↔ (TransverseState.mk [1] (some ⟨⟨2⟩⟩) (some ⟨2⟩)
        (some ⟨"a.pdf", "application/pdf", 3⟩) [] "French").selectedPages
          ≠ fullRange (FileInfo.mk 2).pages) ∧
      ((TransverseState.mk [1] (some ⟨⟨2⟩⟩) (some ⟨2⟩)
        (some ⟨"a.pdf", "application/pdf", 3⟩) [] "French").selectedPages
          ≠ fullRange (FileInfo.mk 2).pages →
        ("pages", FormValue.strVal (String.intercalate ","
          ((TransverseState.mk [1] (some ⟨⟨2⟩⟩) (some ⟨2⟩)
            (some ⟨"a.pdf", "application/pdf", 3⟩) [] "French").selectedPages.map
              toString))) ∈ form)) :=
  ⟨⟨rfl, rfl, rfl, by decide, by decide, by decide⟩,
    translateFileContent_form_fields _ ⟨⟨2⟩⟩ ⟨2⟩ ⟨"a.pdf", "application/pdf", 3⟩
      rfl rfl rfl (by decide) (by decide) (by decide)⟩

/-- Claim C5 as stated is false: in a state whose retained original file
payload is gone but whose DOM file input still holds a file,
`translateFileContent` adopts the fallback file and dispatches the
network request instead of returning the "file not available"
validation error. -/
theorem translateFileContent_fallback_counterexample :
    (TransverseState.mk [1] (some ⟨⟨2⟩⟩) (some ⟨2⟩) none
        [⟨"doc.pdf", "application/pdf", 100⟩] "French").originalUploadedFile = none ∧
    (translateFileContent (TransverseState.mk [1] (some ⟨⟨2⟩⟩) (some ⟨2⟩) none
        [⟨"doc.pdf", "application/pdf", 100⟩] "French")).1.isSend = true ∧
    (translateFileContent (TransverseState.mk [1] (some ⟨⟨2⟩⟩) (some ⟨2⟩) none
        [⟨"doc.pdf", "application/pdf", 100⟩] "French")).1.isValidation = false := by
  decide

/-- Claim C5 amended: when neither the retained payload nor the file-input
fallback holds a file, `translateFileContent` returns a validation
error synchronously and dispatches no request; when additionally file
data is present and the selection is non-empty, the message is the
file-not-available one. -/
theorem translateFileContent_no_payload_validation (st : TransverseState)
    (h1 : st.originalUploadedFile = none) (h2 : st.fileInputFiles = []) :
    (translateFileContent st).1.isValidation = true ∧
    (∀ form, (translateFileContent st).1 ≠ .send form) ∧
    (st.currentFileData ≠ none → st.selectedPages ≠ [] →
      (translateFileContent st).1 = .validationError "Please upload a file first") := by
  obtain ⟨sel, cfd, cfi, ouf, fif, lang⟩ := st
  dsimp only at h1 h2 ⊢
  subst h1
  subst h2
  cases cfd with
  | none =>
    refine ⟨rfl, ?_, ?_⟩
    · intro form hform
      exact SubmitOutcome.noConfusion hform
    · intro hc
      exact absurd rfl hc
  | some d =>
    by_cases hsel : sel.length = 0
    · refine ⟨?_, ?_, ?_⟩
      · simp [translateFileContent, hsel, SubmitOutcome.isValidation]
      · intro form
        simp [translateFileContent, hsel]
      · intro _ hne
        exact absurd (List.length_eq_zero.1 hsel) hne
    · refine ⟨?_, ?_, ?_⟩
      · simp [translateFileContent, hsel, SubmitOutcome.isValidation]
      · intro form
        simp [translateFileContent, hsel]
      · intro _ _
        simp [translateFileContent, hsel]

/-- Witness for the amended C5 at a concrete state. -/
theorem translateFileContent_no_payload_validation_witness :
    ((TransverseState.mk [1] (some ⟨⟨2⟩⟩) (some ⟨2⟩) none [] "French").originalUploadedFile
        = none ∧
      (TransverseState.mk [1] (some ⟨⟨2⟩⟩) (some ⟨2⟩) none [] "French").fileInputFiles
        = []) ∧
    ((translateFileContent
        (TransverseState.mk [1] (some ⟨⟨2⟩⟩) (some ⟨2⟩) none [] "French")).1.isValidation
          = true ∧
      (∀ form, (translateFileContent
        (TransverseState.mk [1] (some ⟨⟨2⟩⟩) (some ⟨2⟩) none [] "French")).1
          ≠ .send form) ∧
      ((TransverseState.mk [1] (some ⟨⟨2⟩⟩) (some ⟨2⟩) none [] "French").currentFileData
          ≠ none →
        (TransverseState.mk [1] (some ⟨⟨2⟩⟩) (some ⟨2⟩) none [] "French").selectedPages
          ≠ [] →
        (translateFileContent
          (TransverseState.mk [1] (some ⟨⟨2⟩⟩) (some ⟨2⟩) none [] "French")).1
            = .validationError "Please upload a file first")) :=
  ⟨⟨rfl, rfl⟩, translateFileContent_no_payload_validation _ rfl rfl⟩

/-- Claim C8: whenever the Selected Page Set is empty, `translateFileContent`
returns a validation error synchronously (whichever guard fires) and
dispatches no network request. -/
theorem translateFileContent_empty_selection (st : TransverseState)
    (h : st.selectedPages = []) :
    (translateFileContent st).1.isValidation = true ∧
    ∀ form, (translateFileContent st).1 ≠ .send form := by
  obtain ⟨sel, cfd, cfi, ouf, fif, lang⟩ := st
  dsimp only at h ⊢
  subst h
  cases cfd with
  | none =>
    exact ⟨rfl, fun form hform => SubmitOutcome.noConfusion hform⟩
  | some d =>
    constructor
    · simp [translateFileContent, SubmitOutcome.isValidation]
    · intro form
      simp [translateFileContent]

/-- Witness for C8 at a concrete state. -/
theorem translateFileContent_empty_selection_witness :
    (TransverseState.mk [] (some ⟨⟨2⟩⟩) (some ⟨2⟩)
        (some ⟨"a.pdf", "application/pdf", 3⟩) [] "French").selectedPages = [] ∧
    ((translateFileContent (TransverseState.mk [] (some ⟨⟨2⟩⟩) (some ⟨2⟩)
        (some ⟨"a.pdf", "application/pdf", 3⟩) [] "French")).1.isValidation = true ∧
      ∀ form, (translateFileContent (TransverseState.mk [] (some ⟨⟨2⟩⟩) (some ⟨2⟩)
        (some ⟨"a.pdf", "application/pdf", 3⟩) [] "French")).1 ≠ .send form) :=
  ⟨rfl, translateFileContent_empty_selection _ rfl⟩

/-- Claim C9: a file whose declared content-type is outside the allow-list is
rejected by `handleFileUpload` with the user-facing unsupported-type
message, and no transfer is started. -/
theorem handleFileUpload_disallowed_rejected (st : TransverseState) (file : JsFile)
    (h : file.type ∉ allowedTypes) :
    (handleFileUpload st file).2 = .rejected
      "Unsupported file type. Please upload supported document or image formats." ∧
    ∀ f, (handleFileUpload st file).2 ≠ .transferStarted f := by
  constructor
  · simp [handleFileUpload, h]
  · intro f
    simp [handleFileUpload, h]

/-- Witness for C9 at a concrete file. -/
theorem handleFileUpload_disallowed_rejected_witness :
    (JsFile.mk "x.exe" "application/x-msdownload" 9).type ∉ allowedTypes ∧
    ((handleFileUpload (TransverseState.mk [] none none none [] "French")
        ⟨"x.exe", "application/x-msdownload", 9⟩).2 = .rejected
          "Unsupported file type. Please upload supported document or image formats." ∧
      ∀ f, (handleFileUpload (TransverseState.mk [] none none none [] "French")
        ⟨"x.exe", "application/x-msdownload", 9⟩).2 ≠ .transferStarted f) :=
  ⟨by decide, handleFileUpload_disallowed_rejected _ _ (by decide)⟩

/-- Claim C10: `handleFileUpload` overwrites the retained original-file
payload with its argument before the allow-list validation runs, so
after any call — also one that rejects the file — the retained payload
is the new file. -/
theorem handleFileUpload_stores_file (st : TransverseState) (file : JsFile) :
    ((handleFileUpload st file).1).originalUploadedFile = some file := by
  dsimp only [handleFileUpload]
  split <;> rfl

/-- Claim C1 as stated is false: a 200 response parsed as `{success: true}`
with no `download_url` is handled as success (recording an absent
locator), not as a failure. -/
theorem handleTranslateLoad_missing_url_counterexample :
    handleTranslateLoad 200 (.parsed (some ⟨true, none, none, none⟩)) 3
        = .succeeded none 3 ∧
    (handleTranslateLoad 200 (.parsed (some ⟨true, none, none, none⟩)) 3).isFailed
        = false := by
  decide

/-- Claim C1 amended: the onload handler checks only the truthiness of the
success flag — every 200-status parsed body with truthy `success` is
treated as success, recording `download_url` exactly as
present-or-absent in the body (a missing locator yields success with an
absent locator, not `failed(ServerError)`). -/
theorem handleTranslateLoad_success_flag_only (data : TranslateData) (k : Nat)
    (h : data.success = true) :
    handleTranslateLoad 200 (.parsed (some data)) k
      = .succeeded data.download_url (jsOrNat data.translated_pages k) := by
  simp [handleTranslateLoad, h]

/-- Witness for the amended C1 at a concrete body. -/
theorem handleTranslateLoad_success_flag_only_witness :
    (TranslateData.mk true none none none).success = true ∧
    handleTranslateLoad 200 (.parsed (some ⟨true, none, none, none⟩)) 5
      = .succeeded (TranslateData.mk true none none none).download_url
          (jsOrNat (TranslateData.mk true none none none).translated_pages 5) :=
  ⟨rfl, handleTranslateLoad_success_flag_only ⟨true, none, none, none⟩ 5 rfl⟩

end Transverse
